import Mathlib

/-! Verification of the Library Store contract of the personal library manager.

The application (`main.py`) keeps a `books` table in PostgreSQL with columns
`(id SERIAL PRIMARY KEY, title, author, year, genre, status)` and exposes, via
its UI handlers: add (INSERT guarded by `if title and author`), view
(`SELECT * FROM books`), remove (`DELETE FROM books WHERE id = %s`), search
(`title ILIKE %q% OR author ILIKE %q%`), statistics (two COUNT queries and a
rounded percentage), and export (`json.dumps` of the fetched rows offered as
`books.json`).

The embedding below models Python strings as lists of characters, the table
as a list of rows kept in insertion order together with the SERIAL sequence
counter, and each UI handler as a pure function on that state.  SQL `ILIKE`
is modelled by an executable pattern matcher over case-folded text handling
the `%` and `_` wildcards and backslash escapes.
-/

namespace LibraryManager

/-- Text (a Python `str` / SQL `TEXT` value), as a list of characters. -/
abbrev Text := List Char

/-- A row of the `books` table. -/
structure Book where
  id : Nat
  title : Text
  author : Text
  year : Int
  genre : Text
  status : Text
deriving DecidableEq, Repr

/-- Error kinds of the store contract (§7 of the design). -/
inductive StoreErr where
  | validationError
  | notFoundError
deriving DecidableEq, Repr

/-- The state of the `books` table: the rows in insertion order plus the
value the `SERIAL` sequence will hand to the next inserted row. -/
structure LibState where
  nextId : Nat
  rows : List Book
deriving DecidableEq, Repr

/-- A freshly created table: no rows, `SERIAL` starts at 1. -/
def emptyState : LibState := ⟨1, []⟩

/-- The Add Book handler: `if title and author:` then
`INSERT INTO books (title, author, year, genre, status) VALUES (...)`,
else an error message.  Python truthiness of a string is "non-empty";
the handler performs no trimming.  Returns the reported error (if any)
together with the table state afterwards. -/
def addBook (title author : Text) (year : Int) (genre status : Text)
    (st : LibState) : Option StoreErr × LibState :=
  if title ≠ [] ∧ author ≠ [] then
    (none, ⟨st.nextId + 1,
            st.rows ++ [⟨st.nextId, title, author, year, genre, status⟩]⟩)
  else
    (some .validationError, st)

/-- The Remove handler: `DELETE FROM books WHERE id = %s` followed by an
unconditional success message.  Deleting an absent id affects zero rows and
raises no error. -/
def removeBook (bookId : Nat) (st : LibState) : Option StoreErr × LibState :=
  (none, ⟨st.nextId, st.rows.filter (fun b => b.id != bookId)⟩)

/-- The View Library fetch: `SELECT * FROM books` returns every row, in the
stored (insertion) order. -/
def listAll (st : LibState) : List Book := st.rows

/-- Case folding of one SQL/Python string, character by character. -/
def lowerText (s : Text) : Text := s.map Char.toLower

/-- Try `f` on the given string and on every one of its suffixes, as the `%`
wildcard of SQL `LIKE` does. -/
def matchStar (f : Text → Bool) : Text → Bool
  | [] => f []
  | c :: t => f (c :: t) || matchStar f t

/-- SQL `LIKE` pattern matching: `%` matches any (possibly empty) substring,
`_` matches exactly one character, a backslash escapes the following pattern
character, and every other character matches itself.  (A pattern ending in a
lone backslash is an error in PostgreSQL; it matches nothing here, and never
arises from the patterns the application builds.)  `likeOne` consumes one
arbitrary character (the `_` wildcard), then continues with `k`. -/
def likeOne (k : Text → Bool) : Text → Bool
  | [] => false
  | _ :: t => k t

/-- Match one literal character `c`, then continue with `k`. -/
def likeChar (c : Char) (k : Text → Bool) : Text → Bool
  | [] => false
  | d :: t => d == c && k t

/-- SQL `LIKE` matching proper, by recursion on the pattern. -/
def likeM : Text → Text → Bool
  | [], s => s.isEmpty
  | c :: ps, s =>
    if c = '%' then matchStar (likeM ps) s
    else if c = '_' then likeOne (likeM ps) s
    else if c = '\\' then
      match ps with
      | [] => false
      | p :: ps2 => likeChar p (likeM ps2) s
    else likeChar c (likeM ps) s
termination_by structural ps _ => ps

/-- SQL `ILIKE`: `LIKE` on the case-folded pattern and subject. -/
def ilike (pat s : Text) : Bool := likeM (lowerText pat) (lowerText s)

/-- The Search handler: `if search_query:` run
`SELECT * FROM books WHERE title ILIKE %s OR author ILIKE %s` with the
pattern `f"%{search_query}%"`, else report a validation error.  The rows are
filtered in stored order. -/
def searchBooks (query : Text) (st : LibState) : Except StoreErr (List Book) :=
  if query ≠ [] then
    .ok ((listAll st).filter fun b =>
      ilike ('%' :: query ++ ['%']) b.title ||
      ilike ('%' :: query ++ ['%']) b.author)
  else
    .error .validationError

/-- Model of `SELECT COUNT(*) FROM books` (the handler's `total_books`). -/
def totalBooks (st : LibState) : Nat := st.rows.length

/-- Model of `SELECT COUNT(*) FROM books WHERE status = 'Finished'`
(the handler's `read_books`). -/
def readBooks (st : LibState) : Nat :=
  (st.rows.filter fun b => b.status == ("Finished").toList).length

/-- Round a rational to the nearest integer, ties going to the even integer,
as `numpy.round` (and Python 3 `round`) do. -/
def roundHalfEven (x : ℚ) : ℤ :=
  if x - ⌊x⌋ < 1/2 then ⌊x⌋
  else if (1 : ℚ)/2 < x - ⌊x⌋ then ⌊x⌋ + 1
  else if ⌊x⌋ % 2 = 0 then ⌊x⌋ else ⌊x⌋ + 1

/-- Model of `np.round(x, 2)`: round to two decimal places, ties to even. -/
def npRound2 (x : ℚ) : ℚ := (roundHalfEven (x * 100) : ℚ) / 100

/-- The statistics tab's `read_percentage`:
`np.round((read_books / total_books) * 100, 2) if total_books > 0 else 0`. -/
def readPercentage (st : LibState) : ℚ :=
  if totalBooks st > 0 then
    npRound2 ((readBooks st : ℚ) / (totalBooks st : ℚ) * 100)
  else 0

/-- The aggregate view the statistics tab computes. -/
structure Stats where
  total : Nat
  finished : Nat
  percentFinished : ℚ
deriving DecidableEq, Repr

/-- The three figures shown by the statistics tab. -/
def stats (st : LibState) : Stats :=
  ⟨totalBooks st, readBooks st, readPercentage st⟩

/-- JSON documents, as `json.dumps` produces them for the data at hand:
numbers, strings, arrays, and objects. -/
inductive Json where
  | jnum (n : Int)
  | jstr (s : Text)
  | jarr (elems : List Json)
  | jobj (fields : List (Text × Json))

/-- How `json.dumps` renders a fetched row — a Python tuple
`(id, title, author, year, genre, status)` — as a JSON array with the six
values in positional order. -/
def bookRowJson (b : Book) : Json :=
  .jarr [.jnum b.id, .jstr b.title, .jstr b.author,
         .jnum b.year, .jstr b.genre, .jstr b.status]

/-- The export's `library_json = json.dumps(books, indent=4)` where
`books = fetchall()` of `SELECT * FROM books`: a JSON array holding one
row-array per book, in stored order.  (The `indent=4` pretty-printing is a
property of the textual rendering of this document.) -/
def libraryJson (st : LibState) : Json :=
  .jarr ((listAll st).map bookRowJson)

/-- The artifact handed to `st.download_button`. -/
structure DownloadArtifact where
  data : Json
  fileName : Text
  mime : Text

/-- The export section: `if total_books > 0` offer the serialized library as
`books.json` with mime `application/json`, else offer nothing. -/
def exportDownload (st : LibState) : Option DownloadArtifact :=
  if totalBooks st > 0 then
    some ⟨libraryJson st, ("books.json").toList, ("application/json").toList⟩
  else none

/-- The mutating operations a user can trigger (search, statistics and
export read the table but never change it). -/
inductive Op where
  | add (title author : Text) (year : Int) (genre status : Text)
  | remove (bookId : Nat)
deriving DecidableEq, Repr

/-- Effect of one operation on the table, with the year taken exactly as
given (direct store-level call). -/
def applyOp (st : LibState) : Op → LibState
  | .add t a y g s => (addBook t a y g s st).2
  | .remove i => (removeBook i st).2

/-- The table state after a sequence of store-level operations on a fresh
table. -/
def run (ops : List Op) : LibState := ops.foldl applyOp emptyState

/-- Model of the `st.number_input("Publication Year", ..., max_value=2100)`
widget with `min_value=1000` and `max_value=2100`: whatever the user does, the value it yields lies in `[lo, hi]`. -/
def numberInputClamp (lo hi v : Int) : Int := max lo (min v hi)

/-- Effect of one operation when driven through the UI: the year of an add
has passed through the publication-year widget. -/
def applyUiOp (st : LibState) : Op → LibState
  | .add t a y g s => (addBook t a (numberInputClamp 1000 2100 y) g s st).2
  | .remove i => (removeBook i st).2

/-- The table state after a sequence of UI-driven operations on a fresh
table. -/
def runUi (ops : List Op) : LibState := ops.foldl applyUiOp emptyState

/-! Spec-side notions.

The following definitions follow the specification's words (case-insensitive
substring matching, "empty after trimming", round-trip decoding, export as
an array of keyed objects) so the handlers above can be compared against
them. -/

/-- Whether `q` starts `s` (character-by-character comparison). -/
def leadsWith : Text → Text → Bool
  | [], _ => true
  | _ :: _, [] => false
  | c :: q, d :: s => d == c && leadsWith q s

/-- Whether `q` occurs somewhere inside `s` as a contiguous substring. -/
def containsSub : Text → Text → Bool
  | q, [] => q.isEmpty
  | q, d :: t => leadsWith q (d :: t) || containsSub q t

/-- The string contains none of the three characters that are special inside
a SQL `LIKE` pattern: `%`, `_`, and the backslash escape. -/
def noMeta (q : Text) : Prop :=
  ∀ c ∈ q, c ≠ '%' ∧ c ≠ '_' ∧ c ≠ '\\'

instance (q : Text) : Decidable (noMeta q) := by
  unfold noMeta; infer_instance

/-- The string is empty after trimming whitespace, i.e. consists entirely of
whitespace characters. -/
def trimmedEmpty (s : Text) : Bool := s.all Char.isWhitespace

/-- Payload `(title, author, year, genre, status)` of a record, the
tuple the round-trip property speaks about. -/
def bookFields (b : Book) : Text × Text × Int × Text × Text :=
  (b.title, b.author, b.year, b.genre, b.status)

/-- Parse one exported row back: accept a six-element JSON array and return
its `(title, author, year, genre, status)` payload, rejecting anything of
the wrong shape. -/
def decodeRowJson : Json → Option (Text × Text × Int × Text × Text)
  | .jarr [_, .jstr t, .jstr a, .jnum y, .jstr g, .jstr s] =>
    some (t, a, y, g, s)
  | _ => none

/-- Parse a list of exported rows back, failing if any row fails. -/
def decodeRowsJson : List Json → Option (List (Text × Text × Int × Text × Text))
  | [] => some []
  | j :: js =>
    match decodeRowJson j, decodeRowsJson js with
    | some f, some fs => some (f :: fs)
    | _, _ => none

/-- Parse an exported document back: accept a JSON array of rows. -/
def decodeLibraryJson : Json → Option (List (Text × Text × Int × Text × Text))
  | .jarr elems => decodeRowsJson elems
  | _ => none

/-- Is this JSON value an object (a brace-delimited map with keys)? -/
def isJsonObject : Json → Bool
  | .jobj _ => true
  | _ => false

/-- Is this JSON value an array all of whose elements are objects? -/
def allRecordsObjects : Json → Bool
  | .jarr elems => elems.all isJsonObject
  | _ => false

/-! Concrete data for witnesses and counterexamples. -/

/-- A sample stored record. -/
def demoBook : Book :=
  ⟨1, ("abc").toList, ("def").toList, 2000,
   ("Fiction").toList, ("Not Read").toList⟩

/-- A table holding exactly `demoBook`. -/
def demoState : LibState := ⟨2, [demoBook]⟩

/-- A table of four records of which exactly two are `Finished`, the
scenario of the specification's statistics example. -/
def fourBooksState : LibState :=
  ⟨5, [⟨1, ("a").toList, ("w").toList, 2001, ("Fiction").toList, ("Finished").toList⟩,
       ⟨2, ("b").toList, ("x").toList, 2002, ("Fiction").toList, ("Not Read").toList⟩,
       ⟨3, ("c").toList, ("y").toList, 2003, ("Fiction").toList, ("Finished").toList⟩,
       ⟨4, ("d").toList, ("z").toList, 2004, ("Fiction").toList,
        ("Currently Reading").toList⟩]⟩

/-- The statistics record as the specification words it: total is the number
of records, finished counts status `Finished`, and the percentage is
`round(finished / total * 100, 2)` when the total is positive, else `0`. -/
def statsSpec (st : LibState) : Stats :=
  ⟨(listAll st).length,
   (listAll st).countP (fun b => b.status == ("Finished").toList),
   if 0 < (listAll st).length then
     npRound2 ((((listAll st).countP
         (fun b => b.status == ("Finished").toList) : ℚ)
       / ((listAll st).length : ℚ)) * 100)
   else 0⟩

/-- Well-formedness of a table state: every stored id is below the `SERIAL`
counter, and the ids strictly increase along the stored order. -/
def Inv (st : LibState) : Prop :=
  (∀ b ∈ st.rows, b.id < st.nextId) ∧
    st.rows.Pairwise (fun x y => x.id < y.id)

/-- Year range property: every stored record's year lies in `[1000, 2100]`. -/
def YearInv (st : LibState) : Prop :=
  ∀ b ∈ st.rows, 1000 ≤ b.year ∧ b.year ≤ 2100

/-! Theory of the `LIKE` matcher: on a pattern free of metacharacters and
bracketed by `%` wildcards it decides exactly substring containment. -/

theorem likeM_nil (s : Text) : likeM [] s = s.isEmpty := rfl

theorem likeM_percent (ps s : Text) :
    likeM ('%' :: ps) s = matchStar (likeM ps) s := by
  rw [likeM.eq_def]
  rfl

theorem likeM_lit_nil {c : Char} (hc : c ≠ '%') (hu : c ≠ '_')
    (hb : c ≠ '\\') (ps : Text) : likeM (c :: ps) [] = false := by
  rw [likeM.eq_def]
  simp only [if_neg hc, if_neg hu, if_neg hb]
  rfl

theorem likeM_lit_cons {c : Char} (hc : c ≠ '%') (hu : c ≠ '_')
    (hb : c ≠ '\\') (ps : Text) (d : Char) (t : Text) :
    likeM (c :: ps) (d :: t) = (d == c && likeM ps t) := by
  rw [likeM.eq_def]
  simp only [if_neg hc, if_neg hu, if_neg hb]
  rfl

theorem matchStar_iff (f : Text → Bool) (s : Text) :
    matchStar f s = true ↔ ∃ n, f (s.drop n) = true := by
  induction s with
  | nil =>
    constructor
    · intro h; exact ⟨0, h⟩
    · rintro ⟨n, hn⟩; simpa [List.drop_nil] using hn
  | cons c t ih =>
    simp only [matchStar, Bool.or_eq_true, ih]
    constructor
    · rintro (h | ⟨n, hn⟩)
      · exact ⟨0, h⟩
      · exact ⟨n + 1, hn⟩
    · rintro ⟨n, hn⟩
      cases n with
      | zero => exact Or.inl hn
      | succ m => exact Or.inr ⟨m, hn⟩

theorem likeM_single_percent (s : Text) : likeM ['%'] s = true := by
  rw [likeM_percent]
  exact (matchStar_iff _ _).mpr ⟨s.length, by simp [List.drop_length, likeM_nil]⟩

theorem leadsWith_nil (q : Text) : leadsWith q [] = q.isEmpty := by
  cases q <;> rfl

theorem likeM_lit_append_percent {q : Text} (hq : noMeta q) :
    ∀ s : Text, likeM (q ++ ['%']) s = leadsWith q s := by
  induction q with
  | nil =>
    intro s
    rw [List.nil_append, likeM_single_percent]
    rfl
  | cons c q ih =>
    intro s
    obtain ⟨hc, hu, hb⟩ := hq c (List.mem_cons_self c q)
    have hq' : noMeta q := fun x hx => hq x (List.mem_cons_of_mem c hx)
    cases s with
    | nil =>
      rw [List.cons_append, likeM_lit_nil hc hu hb]
      rfl
    | cons d t =>
      rw [List.cons_append, likeM_lit_cons hc hu hb, ih hq' t]
      rfl

theorem containsSub_iff (q s : Text) :
    containsSub q s = true ↔ ∃ n, leadsWith q (s.drop n) = true := by
  induction s with
  | nil =>
    simp only [containsSub]
    constructor
    · intro h; exact ⟨0, by simpa [leadsWith_nil] using h⟩
    · rintro ⟨n, hn⟩; simpa [leadsWith_nil] using hn
  | cons c t ih =>
    simp only [containsSub, Bool.or_eq_true, ih]
    constructor
    · rintro (h | ⟨n, hn⟩)
      · exact ⟨0, h⟩
      · exact ⟨n + 1, hn⟩
    · rintro ⟨n, hn⟩
      cases n with
      | zero => exact Or.inl hn
      | succ m => exact Or.inr ⟨m, hn⟩

theorem likeM_substring {q : Text} (hq : noMeta q) (s : Text) :
    likeM ('%' :: (q ++ ['%'])) s = containsSub q s := by
  rw [likeM_percent, Bool.eq_iff_iff, matchStar_iff, containsSub_iff]
  constructor
  · rintro ⟨n, hn⟩
    exact ⟨n, by rwa [likeM_lit_append_percent hq] at hn⟩
  · rintro ⟨n, hn⟩
    exact ⟨n, by rwa [likeM_lit_append_percent hq]⟩

theorem toNat_ofNat_valid {n : Nat} (h : n.isValidChar) :
    (Char.ofNat n).toNat = n := by
  rw [Char.ofNat, dif_pos h]
  rfl

theorem toLower_shape (c : Char) :
    c.toLower = c ∨ (97 ≤ c.toLower.toNat ∧ c.toLower.toNat ≤ 122) := by
  by_cases h : c.toNat ≥ 65 ∧ c.toNat ≤ 90
  · right
    have hlow : c.toLower = Char.ofNat (c.toNat + 32) := by
      unfold Char.toLower
      exact if_pos h
    rw [hlow, toNat_ofNat_valid (Or.inl (by omega))]
    omega
  · left
    unfold Char.toLower
    exact if_neg h

theorem noMeta_lowerText {q : Text} (hq : noMeta q) : noMeta (lowerText q) := by
  intro c hc
  rw [lowerText, List.mem_map] at hc
  obtain ⟨d, hd, rfl⟩ := hc
  obtain ⟨h1, h2, h3⟩ := hq d hd
  rcases toLower_shape d with h | ⟨hlo, hhi⟩
  · rw [h]
    exact ⟨h1, h2, h3⟩
  · refine ⟨?_, ?_, ?_⟩ <;> intro hEq <;> rw [hEq] at hlo <;>
      exact absurd hlo (by decide)

theorem lowerText_pattern (q : Text) :
    lowerText ('%' :: q ++ ['%']) = '%' :: (lowerText q ++ ['%']) := by
  simp only [lowerText, List.map_cons, List.map_append, List.cons_append]
  rfl

theorem searchBooks_eq_filter {q : Text} (hq : noMeta q) (hne : q ≠ [])
    (st : LibState) :
    searchBooks q st = .ok ((listAll st).filter fun b =>
      containsSub (lowerText q) (lowerText b.title) ||
      containsSub (lowerText q) (lowerText b.author)) := by
  rw [searchBooks, if_pos hne]
  congr 1
  apply List.filter_congr
  intro b _
  rw [ilike, ilike, lowerText_pattern,
      likeM_substring (noMeta_lowerText hq),
      likeM_substring (noMeta_lowerText hq)]

/-! Behaviour of the bracketing wildcards on their own: the pattern `%%%`
accepts every subject, and `%_%` accepts exactly the non-empty subjects. -/

theorem likeM_all_percent (s : Text) : likeM ['%', '%', '%'] s = true := by
  rw [likeM_percent]
  refine (matchStar_iff _ _).mpr ⟨s.length, ?_⟩
  rw [List.drop_length]
  rfl

theorem likeM_percent_underscore (c : Char) (t : Text) :
    likeM ['%', '_', '%'] (c :: t) = true := by
  rw [likeM_percent]
  refine (matchStar_iff _ _).mpr ⟨0, ?_⟩
  rw [List.drop_zero]
  show likeOne (likeM ['%']) (c :: t) = true
  show likeM ['%'] t = true
  exact likeM_single_percent t

/-! Preservation of the table invariants by the operations. -/

theorem inv_empty : Inv emptyState := by
  constructor <;> simp [emptyState]

theorem inv_applyOp {st : LibState} (h : Inv st) (op : Op) :
    Inv (applyOp st op) := by
  obtain ⟨hbound, hsort⟩ := h
  cases op with
  | add t a y g s =>
    show Inv (addBook t a y g s st).2
    rw [addBook]
    split
    · constructor
      · intro b hb
        rcases List.mem_append.mp hb with hb | hb
        · exact Nat.lt_succ_of_lt (hbound b hb)
        · rw [List.mem_singleton] at hb
          rw [hb]
          exact Nat.lt_succ_self _
      · rw [List.pairwise_append]
        refine ⟨hsort, List.pairwise_singleton _ _, ?_⟩
        intro x hx b hb
        rw [List.mem_singleton] at hb
        rw [hb]
        exact hbound x hx
    · exact ⟨hbound, hsort⟩
  | remove i =>
    show Inv (removeBook i st).2
    rw [removeBook]
    constructor
    · intro b hb
      exact hbound b (List.mem_of_mem_filter hb)
    · exact List.Pairwise.sublist (List.filter_sublist _) hsort

theorem inv_foldl (ops : List Op) :
    ∀ st : LibState, Inv st → Inv (ops.foldl applyOp st) := by
  induction ops with
  | nil => intro st h; exact h
  | cons op ops ih =>
    intro st h
    exact ih _ (inv_applyOp h op)

theorem inv_run (ops : List Op) : Inv (run ops) :=
  inv_foldl ops emptyState inv_empty

theorem yearInv_applyUiOp {st : LibState} (h : YearInv st) (op : Op) :
    YearInv (applyUiOp st op) := by
  cases op with
  | add t a y g s =>
    show YearInv (addBook t a (numberInputClamp 1000 2100 y) g s st).2
    rw [addBook]
    split
    · intro b hb
      rcases List.mem_append.mp hb with hb | hb
      · exact h b hb
      · rw [List.mem_singleton] at hb
        rw [hb]
        refine ⟨le_max_left _ _, max_le (by norm_num) (min_le_right _ _)⟩
    · exact h
  | remove i =>
    show YearInv (removeBook i st).2
    rw [removeBook]
    intro b hb
    exact h b (List.mem_of_mem_filter hb)

theorem yearInv_foldl (ops : List Op) :
    ∀ st : LibState, YearInv st → YearInv (ops.foldl applyUiOp st) := by
  induction ops with
  | nil => intro st h; exact h
  | cons op ops ih =>
    intro st h
    exact ih _ (yearInv_applyUiOp h op)

theorem yearInv_runUi (ops : List Op) : YearInv (runUi ops) :=
  yearInv_foldl ops emptyState (by intro b hb; cases hb)

/-! Round trip of the export document. -/

theorem decodeRowsJson_map (l : List Book) :
    decodeRowsJson (l.map bookRowJson) = some (l.map bookFields) := by
  induction l with
  | nil => rfl
  | cons b l ih =>
    rw [List.map_cons, List.map_cons, decodeRowsJson, ih]
    rfl

/-! The claims. -/

/-- C1 (counterexample): the add handler does not trim.  With the
whitespace-only title `" "` — empty after trimming — the claim demands a
`ValidationError` and an unchanged store, but the handler inserts the
record. -/
theorem c1_counterexample :
    trimmedEmpty ((" ").toList) = true ∧
    addBook ((" ").toList) (("A").toList) 2000 (("Fiction").toList)
        (("Not Read").toList) emptyState =
      (none, ⟨2, [⟨1, (" ").toList, ("A").toList, 2000, ("Fiction").toList,
                   ("Not Read").toList⟩]⟩) :=
  ⟨by decide, by decide⟩

/-- C1 (amended): the add operation rejects the request with a
`ValidationError` exactly when the title or the author is the empty string
— no whitespace trimming is applied, so whitespace-only inputs are accepted
— and on rejection the store state is unchanged; for non-empty inputs the
insert is performed, appending the record with the next serial id. -/
theorem c1_add_validation (t a : Text) (y : Int) (g s : Text)
    (st : LibState) :
    ((t = [] ∨ a = []) → addBook t a y g s st = (some .validationError, st)) ∧
    (t ≠ [] → a ≠ [] →
      addBook t a y g s st =
        (none, ⟨st.nextId + 1, st.rows ++ [⟨st.nextId, t, a, y, g, s⟩]⟩)) := by
  constructor
  · intro h
    rw [addBook, if_neg]
    rintro ⟨h1, h2⟩
    rcases h with h | h
    · exact h1 h
    · exact h2 h
  · intro h1 h2
    rw [addBook, if_pos ⟨h1, h2⟩]

/-- C1 (witness): an empty title is rejected with the state untouched, and
a non-empty title and author are inserted. -/
theorem c1_add_validation_witness :
    addBook ([]) (("A").toList) 2000 (("Fiction").toList)
        (("Not Read").toList) emptyState =
      (some .validationError, emptyState) ∧
    addBook (("T").toList) (("A").toList) 2000 (("Fiction").toList)
        (("Not Read").toList) emptyState =
      (none, ⟨2, [⟨1, ("T").toList, ("A").toList, 2000, ("Fiction").toList,
                   ("Not Read").toList⟩]⟩) :=
  ⟨(c1_add_validation _ _ _ _ _ _).1 (Or.inl rfl),
   (c1_add_validation _ _ _ _ _ _).2 (by decide) (by decide)⟩

/-- C2 (counterexample): removing id 1 from a table whose only record has
id 1 succeeds and empties the table, and a second remove of the same id
reports no error at all — in particular not `NotFoundError` — leaving the
state as it was. -/
theorem c2_counterexample :
    removeBook 1 demoState = (none, ⟨2, []⟩) ∧
    removeBook 1 (⟨2, []⟩ : LibState) = (none, ⟨2, []⟩) ∧
    (removeBook 1 (⟨2, []⟩ : LibState)).1 ≠ some StoreErr.notFoundError :=
  ⟨by decide, by decide, by decide⟩

/-- C2 (amended): the remove handler issues `DELETE ... WHERE id = %s` and
reports success unconditionally, so after a `remove(id)`, a second
`remove(id)` is a silent no-op: it reports no error and leaves the store
unchanged, rather than failing with `NotFoundError`. -/
theorem c2_remove_silent_noop (i : Nat) (st : LibState) :
    (removeBook i st).1 = none ∧
    removeBook i (removeBook i st).2 = (none, (removeBook i st).2) := by
  refine ⟨rfl, ?_⟩
  simp only [removeBook]
  have hfix : ((st.rows.filter fun b => b.id != i).filter
      fun b => b.id != i) = st.rows.filter fun b => b.id != i :=
    List.filter_eq_self.mpr fun b hb => (List.mem_filter.mp hb).2
  rw [hfix]

/-- C3 (counterexample): for the query `"%"` the handler returns the demo
record although neither its title nor its author contains the character `%`,
so the result differs from the case-insensitive-substring filter the claim
specifies. -/
theorem c3_counterexample :
    searchBooks (("%").toList) demoState = .ok [demoBook] ∧
    containsSub (lowerText (("%").toList)) (lowerText demoBook.title) = false ∧
    containsSub (lowerText (("%").toList)) (lowerText demoBook.author) = false ∧
    [demoBook] ≠ (listAll demoState).filter fun b =>
      containsSub (lowerText (("%").toList)) (lowerText b.title) ||
      containsSub (lowerText (("%").toList)) (lowerText b.author) :=
  ⟨by rfl, by decide, by decide, by decide⟩

/-- C3 (amended): an empty query is rejected as a validation error; for a
non-empty query that contains none of the `LIKE` metacharacters `%`, `_`,
backslash, the search returns exactly the records whose title or author
contains the query as a case-insensitive substring, in the same relative
order as `list_all`, and an empty result is the empty sequence rather than
an error.  (Queries containing a metacharacter are instead interpreted by
the SQL pattern matcher, see C10.) -/
theorem c3_search_contract (q : Text) (st : LibState) :
    (q = [] → searchBooks q st = .error .validationError) ∧
    (q ≠ [] → noMeta q →
      searchBooks q st = .ok ((listAll st).filter fun b =>
        containsSub (lowerText q) (lowerText b.title) ||
        containsSub (lowerText q) (lowerText b.author))) := by
  constructor
  · intro h
    rw [h]
    rfl
  · intro hne hq
    exact searchBooks_eq_filter hq hne st

/-- C3 (witness): searching the demo table for `"ab"` returns exactly the
substring-filtered records. -/
theorem c3_search_contract_witness :
    searchBooks (("ab").toList) demoState =
      .ok ((listAll demoState).filter fun b =>
        containsSub (lowerText (("ab").toList)) (lowerText b.title) ||
        containsSub (lowerText (("ab").toList)) (lowerText b.author)) :=
  (c3_search_contract (("ab").toList) demoState).2 (by decide) (by decide)

/-- C4: for every store state the statistics handler returns the total
record count, the count of records with status `Finished`, and
`round(finished / total * 100, 2)` (ties to even, as `np.round`) when the
total is positive and `0` on the empty store; in particular the empty store
yields `(0, 0, 0)` and four records with exactly two finished yield
`(4, 2, 50)`. -/
theorem c4_stats_correct (st : LibState) :
    stats st = statsSpec st ∧
    stats emptyState = ⟨0, 0, 0⟩ ∧
    stats fourBooksState = ⟨4, 2, 50⟩ := by
  refine ⟨?_, by rfl, ?_⟩
  · simp [stats, statsSpec, totalBooks, readBooks, readPercentage, listAll,
          List.countP_eq_length_filter]
  · have h1 : totalBooks fourBooksState = 4 := rfl
    have h2 : readBooks fourBooksState = 2 := rfl
    rw [stats, readPercentage, h1, h2]
    norm_num [npRound2, roundHalfEven]

/-- C5: on every state reachable by store-level operations, `list_all`
returns the rows themselves — all records, no filtering — their ids strictly
ascending along the returned order, and the empty collection yields the
empty sequence rather than an error. -/
theorem c5_list_all_ordered (ops : List Op) :
    listAll (run ops) = (run ops).rows ∧
    (listAll (run ops)).Pairwise (fun x y => x.id < y.id) ∧
    listAll emptyState = [] :=
  ⟨rfl, (inv_run ops).2, rfl⟩

/-- C6 (counterexample): the store-level add applies no year validation:
adding a record with year 999 — below the claimed lower bound 1000 —
succeeds and persists the out-of-range year instead of failing with a
`ValidationError`. -/
theorem c6_counterexample :
    addBook (("T").toList) (("A").toList) 999 (("Fiction").toList)
        (("Not Read").toList) emptyState =
      (none, ⟨2, [⟨1, ("T").toList, ("A").toList, 999, ("Fiction").toList,
                   ("Not Read").toList⟩]⟩) ∧
    (999 : Int) < 1000 :=
  ⟨by decide, by decide⟩

/-- C6 (amended): the year range `[1000, 2100]` is enforced only by the
publication-year input widget, not by the store; every record persisted
through the UI flow (where the year has passed the widget's
`min_value`/`max_value` bounds) has its year within `[1000, 2100]`. -/
theorem c6_year_range_amended (ops : List Op) :
    ∀ b ∈ (runUi ops).rows, 1000 ≤ b.year ∧ b.year ≤ 2100 :=
  yearInv_runUi ops

/-- C6 (witness): a record added through the UI with year 2000 is in
range. -/
theorem c6_year_range_amended_witness :
    (1000 : Int) ≤
        (⟨1, ("T").toList, ("A").toList, 2000, ("Fiction").toList,
          ("Not Read").toList⟩ : Book).year ∧
      (⟨1, ("T").toList, ("A").toList, 2000, ("Fiction").toList,
        ("Not Read").toList⟩ : Book).year ≤ 2100 :=
  c6_year_range_amended
    [Op.add (("T").toList) (("A").toList) 2000 (("Fiction").toList)
      (("Not Read").toList)]
    ⟨1, ("T").toList, ("A").toList, 2000, ("Fiction").toList,
     ("Not Read").toList⟩
    (by decide)

/-- C7: parsing the export document back reconstructs exactly the
`(title, author, year, genre, status)` tuples of `list_all`, in the same
order, for any sequence of prior add and remove operations. -/
theorem c7_export_roundtrip (ops : List Op) :
    decodeLibraryJson (libraryJson (run ops)) =
      some ((listAll (run ops)).map bookFields) := by
  rw [libraryJson]
  show decodeRowsJson ((listAll (run ops)).map bookRowJson) = _
  exact decodeRowsJson_map _

/-- C8 (counterexample): on a non-empty store the export document is not an
array of keyed objects — `json.dumps` receives the fetched tuples, so the
records come out as positional arrays. -/
theorem c8_counterexample :
    totalBooks demoState > 0 ∧
    allRecordsObjects (libraryJson demoState) = false :=
  ⟨by decide, by rfl⟩

/-- C8 (amended): the export output is a JSON array with one array per
record holding `[id, title, author, year, genre, status]` in that positional
order (no keys), in `list_all` order; when the store is non-empty it is
offered as a file named `books.json` with content type `application/json`,
and on an empty store no download is offered. -/
theorem c8_export_format (st : LibState) :
    libraryJson st =
      Json.jarr ((listAll st).map fun b =>
        Json.jarr [Json.jnum b.id, Json.jstr b.title, Json.jstr b.author,
                   Json.jnum b.year, Json.jstr b.genre, Json.jstr b.status]) ∧
    (totalBooks st > 0 →
      exportDownload st =
        some ⟨libraryJson st, ("books.json").toList,
              ("application/json").toList⟩) ∧
    (totalBooks st = 0 → exportDownload st = none) := by
  refine ⟨rfl, fun h => ?_, fun h => ?_⟩
  · rw [exportDownload, if_pos h]
  · rw [exportDownload, if_neg (by omega)]

/-- C8 (witness): the demo store's export is offered as `books.json` with
mime `application/json`. -/
theorem c8_export_format_witness :
    exportDownload demoState =
      some ⟨libraryJson demoState, ("books.json").toList,
            ("application/json").toList⟩ :=
  (c8_export_format demoState).2.1 (by decide)

/-- C9: on every state reachable by any sequence of operations (add and
remove mutate; search, stats and export only read), the stored ids are
pairwise distinct. -/
theorem c9_id_unique (ops : List Op) :
    ((run ops).rows.map Book.id).Nodup :=
  List.Pairwise.map Book.id (fun _ _ hab => Nat.ne_of_lt hab)
    (inv_run ops).2

/-- C10: the query string is interpolated into the ILIKE pattern without
escaping, so the query `"%"` matches every record of every store — even
records whose fields do not contain the character `%`, see the C3
counterexample — and the query `"_"` matches every record whose title is
non-empty. -/
theorem c10_ilike_wildcard (st : LibState) :
    searchBooks (("%").toList) st = .ok (listAll st) ∧
    ((∀ b ∈ listAll st, b.title ≠ []) →
      searchBooks (("_").toList) st = .ok (listAll st)) := by
  constructor
  · rw [searchBooks, if_pos (by decide)]
    congr 1
    apply List.filter_eq_self.mpr
    intro b _
    have h1 : ilike ('%' :: ("%").toList ++ ['%']) b.title = true := by
      show likeM ['%', '%', '%'] (lowerText b.title) = true
      exact likeM_all_percent _
    rw [h1]
    rfl
  · intro hne
    rw [searchBooks, if_pos (by decide)]
    congr 1
    apply List.filter_eq_self.mpr
    intro b hb
    have hmap : lowerText b.title ≠ [] := by
      rw [lowerText]
      intro h
      exact hne b hb (List.map_eq_nil_iff.mp h)
    have h1 : ilike ('%' :: ("_").toList ++ ['%']) b.title = true := by
      show likeM ['%', '_', '%'] (lowerText b.title) = true
      obtain ⟨c, t, hct⟩ := List.exists_cons_of_ne_nil hmap
      rw [hct]
      exact likeM_percent_underscore c t
    rw [h1]
    rfl

/-- C10 (witness): both wildcard queries return the whole demo store. -/
theorem c10_ilike_wildcard_witness :
    searchBooks (("%").toList) demoState = .ok (listAll demoState) ∧
    searchBooks (("_").toList) demoState = .ok (listAll demoState) :=
  ⟨(c10_ilike_wildcard demoState).1,
   (c10_ilike_wildcard demoState).2 (by decide)⟩

end LibraryManager
